import Mathlib

/-!
Verification of the JWT-authentication and ambient permission-context
pattern of a Next.js + tRPC boilerplate.

The embedding covers:
* `src/server/auth/jwt.ts` — `parseAuthHeader`, `extractUserId`,
  `extractPermissions` (the external `jsonwebtoken.verify` call is an
  abstract `Verifier` parameter: any verification failure is `none`);
* the tRPC middlewares `protectedProcedure` and `permissionProcedure`
  (the variants that wrap the handler in the permission context);
* the `UserDAO` data-access methods that place a permission check before
  their database mutation (Prisma is modelled by an explicit `DB` state);
* the external `@david.uhlir/permissions-guard` library, whose code is
  not part of the repository: `runWithPermissions` and
  `checkRequiredPermissions` are modelled from the spec;
* a cooperative-interleaving worker model for the cross-call isolation
  property of the ambient context.
-/

namespace Boilerplate

/-- Decoded JWT payload (interface `TokenPayload` in `jwt.ts`).  Fields that
the TypeScript interface marks optional — and `userId`, which the unchecked
cast may leave absent at runtime — are `Option`s. -/
structure TokenPayload where
  userId : Option String
  email : Option String := none
  permissions : Option (List String) := none
deriving Repr, DecidableEq

/-- A value of the JS headers record: a string or an array of strings. -/
inductive HeaderValue where
  | str (s : String)
  | strs (l : List String)
deriving Repr, DecidableEq

/-- The headers record (`Record<string, string | string[]>`). -/
abbrev Headers := List (String × HeaderValue)

/-- JS object-key lookup after `Object.fromEntries`: the last entry with the
given key wins. -/
def recordGet (hs : Headers) (k : String) : Option HeaderValue :=
  ((hs.filter (fun p => p.1 == k)).getLast?).map (fun p => p.2)

/-- Abstract cryptographic verification (`jwt.verify` with the server-held
secret): `none` for every verification failure — bad signature, malformed
payload, expiry.  The `try`/`catch` in `parseAuthHeader` means no exception
escapes, which the `Option` result models. -/
abbrev Verifier := String → Option TokenPayload

/-- JS `String.prototype.split` with a one-character separator, accumulator
form: splits at every occurrence of `sep`, keeping empty fragments. -/
def splitOnCharAux (sep : Char) : List Char → List Char → List (List Char)
  | [], acc => [acc.reverse]
  | c :: cs, acc =>
    if c = sep then acc.reverse :: splitOnCharAux sep cs []
    else splitOnCharAux sep cs (c :: acc)

/-- `authHeader.split(' ')` from `parseAuthHeader`. -/
def jsSplitSpace (s : String) : List String :=
  (splitOnCharAux ' ' s.data []).map (fun cs => String.mk cs)

/-- `parseAuthHeader` (`jwt.ts` lines 18–35): `null` when the header is
absent or falsy, when splitting on the space does not give exactly two
parts, when the first part is not `"Bearer"`, or when verification fails. -/
def parseAuthHeader (verify : Verifier) (authHeader : Option String) :
    Option TokenPayload :=
  match authHeader with
  | none => none
  | some a =>
    if a = "" then none
    else
      let parts := jsSplitSpace a
      if parts.length = 2 ∧ parts.head? = some "Bearer" then
        verify (parts.getD 1 "")
      else none

/-- JS `s || null` for a possibly-absent string: `undefined` and the empty
string are falsy and become `null`. -/
def jsStringOrNull (s : Option String) : Option String :=
  match s with
  | none => none
  | some v => if v = "" then none else some v

/-- `headers.authorization` guarded by `typeof authHeader !== 'string'`:
the shared prefix of `extractUserId` and `extractPermissions`. -/
def getAuthHeaderValue (headers : Option Headers) : Option String :=
  match headers with
  | none => none
  | some hs =>
    match recordGet hs "authorization" with
    | some (HeaderValue.str a) => some a
    | _ => none

/-- `extractUserId` (`jwt.ts` lines 42–50): `payload?.userId || null`. -/
def extractUserId (verify : Verifier) (headers : Option Headers) :
    Option String :=
  match getAuthHeaderValue headers with
  | none => none
  | some a =>
    match parseAuthHeader verify (some a) with
    | none => none
    | some payload => jsStringOrNull payload.userId

/-- `extractPermissions` (`jwt.ts` lines 57–65): `payload?.permissions || []`
(a present-but-empty array is truthy in JS and is returned as is, so the
default applies exactly when the field is absent). -/
def extractPermissions (verify : Verifier) (headers : Option Headers) :
    List String :=
  match getAuthHeaderValue headers with
  | none => []
  | some a =>
    match parseAuthHeader verify (some a) with
    | none => []
    | some payload => payload.permissions.getD []

/-- A tRPC error as thrown by the middlewares: code and message. -/
structure TRPCError where
  code : String
  message : String
deriving Repr, DecidableEq

/-- The `UNAUTHORIZED` error thrown by both middlewares. -/
def unauthorizedError : TRPCError :=
  ⟨"UNAUTHORIZED", "No authentication token provided"⟩

/-- The `FORBIDDEN` error thrown by `permissionProcedure`: note the source
joins the **required** permission list into the message
(`requiredPermissions.join(', ')`). -/
def forbiddenError (requiredPermissions : List String) : TRPCError :=
  ⟨"FORBIDDEN",
    "Missing required permissions: " ++
      String.intercalate ", " requiredPermissions⟩

/-- The ambient permission context: principal id and granted permissions
(spec §3 `AmbientContext`; the pair passed to `runWithPermissions`). -/
structure AmbientContext where
  principalId : String
  permissions : List String
deriving Repr, DecidableEq

/-- Modelled from the spec: `PermissionsGuard.runWithPermissions(permissions,
userId, callback)` of the external `@david.uhlir/permissions-guard` package,
whose source is not in the repository.  Spec §4.2 `establish`: the callback
runs with `current()` returning exactly the established context for its whole
dynamic extent, so the callback is a function of that context. -/
def runWithPermissions {α : Type} (permissions : List String) (userId : String)
    (callback : AmbientContext → α) : α :=
  callback ⟨userId, permissions⟩

/-- Failure signals of the declarative guard (spec §7). -/
inductive GuardError where
  | unauthenticated
  | accessDenied (missing : List String)
deriving Repr, DecidableEq

/-- Modelled from the spec: `PermissionsGuard.checkRequiredPermissions` of the
external `@david.uhlir/permissions-guard` package, whose source is not in the
repository.  Spec §4.4 `require`: absent context → unauthenticated; context
present but some required permission not granted → access denied naming the
missing permissions; otherwise return normally. -/
def checkRequiredPermissions (required : List String)
    (ctx : Option AmbientContext) : Except GuardError Unit :=
  match ctx with
  | none => Except.error GuardError.unauthenticated
  | some c =>
    let missing := required.filter (fun p => !(c.permissions.contains p))
    if missing.isEmpty then Except.ok ()
    else Except.error (GuardError.accessDenied missing)

/-- Modelled from the spec: one guard invocation as a state transformer over
the ambient store seen by the call chain (spec §4.4: the guard is
side-effect-free other than its pass/fail signal, so the store is returned
unchanged). -/
def requireRun (required : List String) (s : Option AmbientContext) :
    Except GuardError Unit × Option AmbientContext :=
  (checkRequiredPermissions required s, s)

/-- The inline permission check of `permissionProcedure` (`cluster.ts`
lines 156–165): `requiredPermissions.every(perm => permissions.includes(perm))`,
throwing `FORBIDDEN` with the joined **required** list otherwise. -/
def permissionCheck (requiredPermissions permissions : List String) :
    Except TRPCError Unit :=
  let hasPermission :=
    requiredPermissions.all (fun perm => permissions.contains perm)
  if !hasPermission then Except.error (forbiddenError requiredPermissions)
  else Except.ok ()

/-- `protectedProcedure` (`cluster.ts` lines 222–252, the variant that wraps
the handler in the permission context): extract userId and permissions, throw
`UNAUTHORIZED` on a falsy userId, else run `next` inside
`runWithPermissions(permissions, userId, ...)`. -/
def protectedProcedure {α : Type} (verify : Verifier) (headers : Option Headers)
    (next : AmbientContext → Except TRPCError α) : Except TRPCError α :=
  let userId := extractUserId verify headers
  let permissions := extractPermissions verify headers
  match userId with
  | none => Except.error unauthorizedError
  | some uid => runWithPermissions permissions uid next

/-- `permissionProcedure` (`cluster.ts` lines 139–183): like
`protectedProcedure` but with the inline required-permission check between
the userId check and the context wrapping. -/
def permissionProcedure {α : Type} (requiredPermissions : List String)
    (verify : Verifier) (headers : Option Headers)
    (next : AmbientContext → Except TRPCError α) : Except TRPCError α :=
  let userId := extractUserId verify headers
  let permissions := extractPermissions verify headers
  match userId with
  | none => Except.error unauthorizedError
  | some uid =>
    match permissionCheck requiredPermissions permissions with
    | Except.error e => Except.error e
    | Except.ok _ => runWithPermissions permissions uid next

/-- A persisted user row (the Prisma `user` model used by `UserDAO`). -/
structure User where
  id : String
  name : String
  email : String
deriving Repr, DecidableEq

/-- The database state behind the Prisma client: the user table plus an id
source for `create`. -/
structure DB where
  users : List User
  nextId : Nat
deriving Repr, DecidableEq

/-- `db.user.create`: insert a fresh row. -/
def DB.createUser (db : DB) (name email : String) : User × DB :=
  let u : User := ⟨toString db.nextId, name, email⟩
  (u, ⟨db.users ++ [u], db.nextId + 1⟩)

/-- `db.user.findUnique({ where: { id } })`. -/
def DB.findUnique (db : DB) (id : String) : Option User :=
  db.users.find? (fun u => u.id == id)

/-- `db.user.delete({ where: { id } })`. -/
def DB.deleteUser (db : DB) (id : String) : DB :=
  ⟨db.users.filter (fun u => u.id != id), db.nextId⟩

/-- `UserDAO.create` (`user.dao.ts`): check `['user/create']` against the
ambient context, then insert.  The guard error aborts before any mutation, so
the database is returned unchanged on failure. -/
def UserDAO.create (ctx : Option AmbientContext) (name email : String)
    (db : DB) : Except GuardError User × DB :=
  match checkRequiredPermissions ["user/create"] ctx with
  | Except.error e => (Except.error e, db)
  | Except.ok _ =>
    let r := db.createUser name email
    (Except.ok r.1, r.2)

/-- `db.user.update({ where: { id }, data })`: apply the partial update to
the matching row; Prisma's reject-on-missing-row is modelled as `none`. -/
def DB.updateUser (db : DB) (id : String)
    (data : Option String × Option String) : Option User × DB :=
  match db.findUnique id with
  | none => (none, db)
  | some u =>
    let u2 : User := ⟨u.id, data.1.getD u.name, data.2.getD u.email⟩
    (some u2,
      ⟨db.users.map (fun v => if v.id == id then u2 else v), db.nextId⟩)

/-- `UserDAO.update` (`user.dao.ts`): check `['user/write']` against the
ambient context, then update. -/
def UserDAO.update (ctx : Option AmbientContext) (id : String)
    (data : Option String × Option String) (db : DB) :
    Except GuardError (Option User) × DB :=
  match checkRequiredPermissions ["user/write"] ctx with
  | Except.error e => (Except.error e, db)
  | Except.ok _ =>
    let r := db.updateUser id data
    (Except.ok r.1, r.2)

/-- `UserDAO.delete` (`user.dao.ts`): check `['user/delete']` against the
ambient context, then `findUnique` (returning `null` when the row is absent)
and `delete`. -/
def UserDAO.delete (ctx : Option AmbientContext) (id : String) (db : DB) :
    Except GuardError (Option User) × DB :=
  match checkRequiredPermissions ["user/delete"] ctx with
  | Except.error e => (Except.error e, db)
  | Except.ok _ =>
    match db.findUnique id with
    | none => (Except.ok none, db)
    | some u => (Except.ok (some u), db.deleteUser id)

/-- One concurrently in-flight call on the worker: the context established
for it at entry by `runWithPermissions`, the guard checks it still has to
run (one per cooperative turn, i.e. separated by suspension points), and the
log of guard outcomes it has observed. -/
structure Call where
  principalId : String
  permissions : List String
  pending : List (List String)
  log : List (Except GuardError Unit)

/-- One cooperative turn of a single call: perform its next guard check
against its **own** established context and suspend.  Modelled from the
spec: the async-local store consulted by the guard is private to the call
chain (spec §5), so the check reads this call's context and no other. -/
def stepCall (c : Call) : Call :=
  match c.pending with
  | [] => c
  | req :: rest =>
    ⟨c.principalId, c.permissions, rest,
      c.log ++ [checkRequiredPermissions req
        (some ⟨c.principalId, c.permissions⟩)]⟩

/-- The worker's in-flight calls, indexed by call id. -/
abbrev Worker := Nat → Call

/-- Run the worker under an interleaving schedule: at each scheduler step the
named call takes one cooperative turn while every other call is suspended. -/
def runWorker (w : Worker) : List Nat → Worker
  | [] => w
  | i :: sched =>
    runWorker (fun j => if j = i then stepCall (w j) else w j) sched

/-- Advance one call through `n` of its own turns in isolation. -/
def advanceCall (c : Call) : Nat → Call
  | 0 => c
  | Nat.succ k => advanceCall (stepCall c) k

/-- Concrete verifier used by the witnesses: four recognised tokens — a
normal one, one whose payload omits `permissions`, one whose payload omits
`userId`, and one with an empty-string `userId`. -/
def demoVerify : Verifier := fun t =>
  if t = "good-token" then
    some ⟨some "u1", some "u1@example.com", some ["user/read"]⟩
  else if t = "noperms-token" then
    some ⟨some "u2", none, none⟩
  else if t = "nouid-token" then
    some ⟨none, none, some ["user/read"]⟩
  else if t = "emptyuid-token" then
    some ⟨some "", none, some ["user/read"]⟩
  else none

/-- Headers carrying the normal demo token. -/
def demoHeaders : Option Headers :=
  some [("authorization", HeaderValue.str "Bearer good-token")]

/-- Headers carrying the token whose payload omits `permissions`. -/
def demoHeadersNoPerms : Option Headers :=
  some [("authorization", HeaderValue.str "Bearer noperms-token")]

/-- Headers carrying the token with an empty-string `userId`. -/
def demoHeadersEmptyUid : Option Headers :=
  some [("authorization", HeaderValue.str "Bearer emptyuid-token")]

/-- Headers with a malformed authorization value. -/
def demoHeadersMalformed : Option Headers :=
  some [("authorization", HeaderValue.str "Basic xyz")]

/-- A demo handler that reports the context it observed. -/
def demoNext : AmbientContext → Except TRPCError (String × List String) :=
  fun c => Except.ok (c.principalId, c.permissions)

/-- A small database for the DAO witnesses. -/
def demoDB : DB :=
  ⟨[⟨"0", "Alice", "alice@example.com"⟩], 1⟩

/-! ## Helper lemmas -/

/-- The userId extraction factors through the header lookup and the parse. -/
theorem extractUserId_eq_none (verify : Verifier) (headers : Option Headers)
    (h : parseAuthHeader verify (getAuthHeaderValue headers) = none) :
    extractUserId verify headers = none := by
  unfold extractUserId
  cases hv : getAuthHeaderValue headers with
  | none => rfl
  | some a =>
    rw [hv] at h
    simp [h]

/-- The inline check of `permissionProcedure` passes exactly when every
required permission is granted. -/
theorem permissionCheck_ok_iff (required granted : List String) :
    permissionCheck required granted = Except.ok () ↔
      ∀ p ∈ required, p ∈ granted := by
  unfold permissionCheck
  cases hall : required.all (fun perm => granted.contains perm) with
  | true =>
    simp only [hall, Bool.not_true, Bool.false_eq_true, if_false]
    simp only [List.all_eq_true, List.elem_iff] at hall
    simpa using hall
  | false =>
    simp only [hall, Bool.not_false, if_true]
    simp only [List.all_eq_false] at hall
    obtain ⟨p, hp, hnp⟩ := hall
    simp only [List.elem_iff, Bool.not_eq_true'] at hnp
    constructor
    · intro hcontra; cases hcontra
    · intro hallmem
      exact absurd (hallmem p hp) (by simpa using hnp)

/-- The spec-modelled guard passes exactly when every required permission is
in the context's granted set. -/
theorem checkRequiredPermissions_ok_iff (required : List String)
    (c : AmbientContext) :
    checkRequiredPermissions required (some c) = Except.ok () ↔
      ∀ p ∈ required, p ∈ c.permissions := by
  unfold checkRequiredPermissions
  cases hemp :
      (required.filter (fun p => !(c.permissions.contains p))).isEmpty with
  | true =>
    simp only [hemp, if_true, true_iff]
    rw [List.isEmpty_iff, List.filter_eq_nil_iff] at hemp
    intro p hp
    have := hemp p hp
    simpa [List.elem_iff] using this
  | false =>
    simp only [hemp, Bool.false_eq_true, if_false]
    constructor
    · intro hcontra; cases hcontra
    · intro hall
      exfalso
      rw [List.isEmpty_eq_false_iff_exists_mem] at hemp
      obtain ⟨p, hp⟩ := hemp
      rw [List.mem_filter] at hp
      have := hall p hp.1
      simp [List.elem_iff, this] at hp

/-! ## Claim theorems -/

/-- C2: the permission guard uses conjunctive (AND) semantics — the inline
check of `permissionProcedure` (and the spec-modelled service-level guard)
returns normally iff every required permission string is a member of the
granted set; in particular a strict superset of grants passes. -/
theorem guard_conjunctive_semantics (required granted : List String)
    (uid : String) :
    (permissionCheck required granted = Except.ok () ↔
      ∀ p ∈ required, p ∈ granted)
    ∧ (checkRequiredPermissions required (some ⟨uid, granted⟩) =
        Except.ok () ↔ ∀ p ∈ required, p ∈ granted)
    ∧ (required ⊆ granted ∧ ¬ granted ⊆ required →
      permissionCheck required granted = Except.ok ()) := by
  refine ⟨permissionCheck_ok_iff required granted,
    checkRequiredPermissions_ok_iff required ⟨uid, granted⟩, ?_⟩
  intro hsub
  exact (permissionCheck_ok_iff required granted).mpr
    (fun p hp => hsub.1 hp)

/-- C2 witness: with the spec §8 scenario — required `["user/read"]`
granted `["user/read", "user/delete"]` (a strict superset) — the guard
passes. -/
theorem guard_conjunctive_semantics_witness :
    permissionCheck ["user/read"] ["user/read", "user/delete"] =
      Except.ok () := by
  exact (guard_conjunctive_semantics ["user/read"]
    ["user/read", "user/delete"] "u1").2.2 (by decide)

/-- C3 counterexample: with required `["user/delete", "user/read"]` and
granted `["user/read"]`, the only missing permission is `"user/delete"`, yet
the raised error's message names the full required list — including
`"user/read"`, which the caller does hold — and differs from a message
naming exactly the missing permissions. -/
theorem forbidden_message_counterexample :
    permissionCheck ["user/delete", "user/read"] ["user/read"] =
      Except.error (forbiddenError ["user/delete", "user/read"])
    ∧ (["user/delete", "user/read"].filter
        (fun p => !(["user/read"].contains p))) = ["user/delete"]
    ∧ (forbiddenError ["user/delete", "user/read"]).message =
      "Missing required permissions: user/delete, user/read"
    ∧ "user/read" ∈ ["user/read"]
    ∧ (forbiddenError ["user/delete", "user/read"]).message ≠
      "Missing required permissions: " ++
        String.intercalate ", " ["user/delete"] := by
  refine ⟨rfl, by decide, by decide, by decide, by decide⟩

/-- C3 (amended): when at least one required permission is missing, the
middleware raises `FORBIDDEN` whose message names the full required
permission list (not just the missing ones). -/
theorem permissionCheck_denied_names_required (required granted : List String)
    (h : ¬ ∀ p ∈ required, p ∈ granted) :
    permissionCheck required granted =
      Except.error (forbiddenError required) := by
  unfold permissionCheck
  cases hall : required.all (fun perm => granted.contains perm) with
  | true =>
    exfalso
    apply h
    intro p hp
    have := (List.all_eq_true.mp hall) p hp
    simpa [List.elem_iff] using this
  | false => simp [hall]

/-- C3 (amended) witness: required `["user/delete", "user/read"]`, granted
`["user/read"]` — the error names both required permissions. -/
theorem permissionCheck_denied_names_required_witness :
    permissionCheck ["user/delete", "user/read"] ["user/read"] =
      Except.error (forbiddenError ["user/delete", "user/read"]) := by
  exact permissionCheck_denied_names_required
    ["user/delete", "user/read"] ["user/read"] (by decide)

/-- C9: idempotence of the guard — two sequential invocations of the guard
with an unchanged ambient context yield the same outcome, and the guard
leaves the ambient store untouched. -/
theorem require_idempotent (required : List String)
    (s : Option AmbientContext) :
    (requireRun required ((requireRun required s).2)).1 =
      (requireRun required s).1
    ∧ (requireRun required s).2 = s := by
  exact ⟨rfl, rfl⟩

/-- C4: for every inbound call whose Authorization header is absent,
malformed, or fails token verification, both entry middlewares throw
`UNAUTHORIZED` — for every handler, so the business handler is never
invoked. -/
theorem entry_rejects_invalid_credential {α : Type}
    (verify : Verifier) (headers : Option Headers)
    (required : List String) (next : AmbientContext → Except TRPCError α)
    (h : parseAuthHeader verify (getAuthHeaderValue headers) = none) :
    protectedProcedure verify headers next = Except.error unauthorizedError
    ∧ permissionProcedure required verify headers next =
      Except.error unauthorizedError := by
  have huid : extractUserId verify headers = none :=
    extractUserId_eq_none verify headers h
  constructor
  · unfold protectedProcedure
    rw [huid]
  · unfold permissionProcedure
    rw [huid]

/-- C4 witness: a malformed header (`"Basic xyz"`) is rejected by both
middlewares before the handler. -/
theorem entry_rejects_invalid_credential_witness :
    parseAuthHeader demoVerify (getAuthHeaderValue demoHeadersMalformed) =
      none
    ∧ protectedProcedure demoVerify demoHeadersMalformed demoNext =
      Except.error unauthorizedError
    ∧ permissionProcedure ["user/read"] demoVerify demoHeadersMalformed
        demoNext = Except.error unauthorizedError := by
  refine ⟨rfl, ?_, ?_⟩
  · exact (entry_rejects_invalid_credential demoVerify demoHeadersMalformed
      ["user/read"] demoNext rfl).1
  · exact (entry_rejects_invalid_credential demoVerify demoHeadersMalformed
      ["user/read"] demoNext rfl).2

/-- C5: when the credential decodes to a principal id, `protectedProcedure`
runs the handler inside the context established from exactly that principal
id and the token's permissions, and returns the handler's outcome — success
or error — unchanged. -/
theorem protectedProcedure_establishes_context {α : Type}
    (verify : Verifier) (headers : Option Headers) (uid : String)
    (next : AmbientContext → Except TRPCError α)
    (h : extractUserId verify headers = some uid) :
    protectedProcedure verify headers next =
      next ⟨uid, extractPermissions verify headers⟩ := by
  unfold protectedProcedure
  rw [h]
  rfl

/-- C5 witness: the demo token runs the handler with principal `"u1"` and
permissions `["user/read"]`, and the handler's value comes back unchanged. -/
theorem protectedProcedure_establishes_context_witness :
    extractUserId demoVerify demoHeaders = some "u1"
    ∧ protectedProcedure demoVerify demoHeaders demoNext =
      demoNext ⟨"u1", extractPermissions demoVerify demoHeaders⟩
    ∧ protectedProcedure demoVerify demoHeaders demoNext =
      Except.ok ("u1", ["user/read"]) := by
  refine ⟨rfl, ?_, ?_⟩
  · exact protectedProcedure_establishes_context demoVerify demoHeaders
      "u1" demoNext rfl
  · rfl

/-- C10: a credential that verifies cryptographically but whose payload has
no `userId` or an empty-string `userId` is coerced to the absent principal
(`payload?.userId || null`), so both middlewares reject the call with
`UNAUTHORIZED` before any handler runs. -/
theorem falsy_userId_rejected {α : Type}
    (verify : Verifier) (headers : Option Headers) (a : String)
    (p : TokenPayload) (required : List String)
    (next : AmbientContext → Except TRPCError α)
    (h1 : getAuthHeaderValue headers = some a)
    (h2 : parseAuthHeader verify (some a) = some p)
    (h3 : p.userId = none ∨ p.userId = some "") :
    protectedProcedure verify headers next = Except.error unauthorizedError
    ∧ permissionProcedure required verify headers next =
      Except.error unauthorizedError := by
  have hfalsy : jsStringOrNull p.userId = none := by
    rcases h3 with h3 | h3 <;> simp [jsStringOrNull, h3]
  have huid : extractUserId verify headers = none := by
    unfold extractUserId
    rw [h1]
    simp [h2, hfalsy]
  constructor
  · unfold protectedProcedure
    rw [huid]
  · unfold permissionProcedure
    rw [huid]

/-- C10 witness: a verified token whose payload carries `userId = ""` is
rejected by both middlewares. -/
theorem falsy_userId_rejected_witness :
    parseAuthHeader demoVerify (some "Bearer emptyuid-token") =
      some ⟨some "", none, some ["user/read"]⟩
    ∧ protectedProcedure demoVerify demoHeadersEmptyUid demoNext =
      Except.error unauthorizedError
    ∧ permissionProcedure ["user/read"] demoVerify demoHeadersEmptyUid
        demoNext = Except.error unauthorizedError := by
  refine ⟨rfl, ?_, ?_⟩
  · exact (falsy_userId_rejected demoVerify demoHeadersEmptyUid
      "Bearer emptyuid-token" ⟨some "", none, some ["user/read"]⟩
      ["user/read"] demoNext rfl rfl (Or.inr rfl)).1
  · exact (falsy_userId_rejected demoVerify demoHeadersEmptyUid
      "Bearer emptyuid-token" ⟨some "", none, some ["user/read"]⟩
      ["user/read"] demoNext rfl rfl (Or.inr rfl)).2

/-- C8: when a successfully verified token's payload omits the
`permissions` field, the extracted permission set is empty, and (when the
principal id is present) the call proceeds as authenticated with no granted
permissions. -/
theorem omitted_permissions_empty {α : Type}
    (verify : Verifier) (headers : Option Headers) (a uid : String)
    (p : TokenPayload) (next : AmbientContext → Except TRPCError α)
    (h1 : getAuthHeaderValue headers = some a)
    (h2 : parseAuthHeader verify (some a) = some p)
    (h3 : p.permissions = none) :
    extractPermissions verify headers = []
    ∧ (jsStringOrNull p.userId = some uid →
      protectedProcedure verify headers next = next ⟨uid, []⟩) := by
  have hperms : extractPermissions verify headers = [] := by
    unfold extractPermissions
    rw [h1]
    simp [h2, h3]
  refine ⟨hperms, fun huid => ?_⟩
  have hx : extractUserId verify headers = some uid := by
    unfold extractUserId
    rw [h1]
    simp [h2, huid]
  rw [protectedProcedure_establishes_context verify headers uid next hx,
    hperms]

/-- C8 witness: the demo token without a `permissions` field authenticates
as `"u2"` with the empty permission set. -/
theorem omitted_permissions_empty_witness :
    extractPermissions demoVerify demoHeadersNoPerms = []
    ∧ protectedProcedure demoVerify demoHeadersNoPerms demoNext =
      demoNext ⟨"u2", []⟩ := by
  have h := omitted_permissions_empty demoVerify demoHeadersNoPerms
    "Bearer noperms-token" "u2" ⟨some "u2", none, none⟩ demoNext rfl rfl rfl
  exact ⟨h.1, h.2 rfl⟩

/-- C6: in both DAO mutators the permission check comes strictly before the
mutation — when the guard fails, the method returns that failure and the
database state is unchanged (no create or delete took effect). -/
theorem dao_checks_before_mutation
    (ctx : Option AmbientContext) (name email id : String) (db : DB)
    (e : GuardError) :
    (checkRequiredPermissions ["user/create"] ctx = Except.error e →
      UserDAO.create ctx name email db = (Except.error e, db))
    ∧ (checkRequiredPermissions ["user/write"] ctx = Except.error e →
      UserDAO.update ctx id (some name, some email) db =
        (Except.error e, db))
    ∧ (checkRequiredPermissions ["user/delete"] ctx = Except.error e →
      UserDAO.delete ctx id db = (Except.error e, db)) := by
  refine ⟨fun h => ?_, fun h => ?_, fun h => ?_⟩
  · unfold UserDAO.create
    rw [h]
  · unfold UserDAO.update
    rw [h]
  · unfold UserDAO.delete
    rw [h]

/-- C6 witness: a caller granted only `user/read` gets access denied from
both `UserDAO.create` and `UserDAO.delete`, and the database — which does
contain the row `"0"` that the delete targets — is untouched. -/
theorem dao_checks_before_mutation_witness :
    UserDAO.create (some ⟨"u1", ["user/read"]⟩) "Bob" "bob@example.com"
        demoDB =
      (Except.error (GuardError.accessDenied ["user/create"]), demoDB)
    ∧ UserDAO.update (some ⟨"u1", ["user/read"]⟩) "0"
        (some "Bob", some "bob@example.com") demoDB =
      (Except.error (GuardError.accessDenied ["user/write"]), demoDB)
    ∧ UserDAO.delete (some ⟨"u1", ["user/read"]⟩) "0" demoDB =
      (Except.error (GuardError.accessDenied ["user/delete"]), demoDB)
    ∧ demoDB.findUnique "0" =
      some ⟨"0", "Alice", "alice@example.com"⟩ := by
  refine ⟨?_, ?_, ?_, rfl⟩
  · exact (dao_checks_before_mutation (some ⟨"u1", ["user/read"]⟩)
      "Bob" "bob@example.com" "0" demoDB
      (GuardError.accessDenied ["user/create"])).1 rfl
  · exact (dao_checks_before_mutation (some ⟨"u1", ["user/read"]⟩)
      "Bob" "bob@example.com" "0" demoDB
      (GuardError.accessDenied ["user/write"])).2.1 rfl
  · exact (dao_checks_before_mutation (some ⟨"u1", ["user/read"]⟩)
      "Bob" "bob@example.com" "0" demoDB
      (GuardError.accessDenied ["user/delete"])).2.2 rfl

/-- C7: the token decoder is total with an optional result — it yields a
payload exactly when splitting the header on the whitespace separator gives
exactly two parts, the first is `"Bearer"`, and the second verifies; an
absent header, and every verification failure, yield `none` (no exception
escapes, as the `Option` result is total by construction). -/
theorem parseAuthHeader_characterization (verify : Verifier) (a : String) :
    (∀ p, parseAuthHeader verify (some a) = some p ↔
      ∃ t, jsSplitSpace a = ["Bearer", t] ∧ verify t = some p)
    ∧ parseAuthHeader verify none = none := by
  refine ⟨fun p => ?_, rfl⟩
  unfold parseAuthHeader
  by_cases ha : a = ""
  · subst ha
    constructor
    · intro hcontra; simp at hcontra
    · rintro ⟨t, ht, -⟩
      have heq : jsSplitSpace "" = [""] := rfl
      rw [heq] at ht
      simp at ht
  · simp only [ha, if_false]
    by_cases hc : (jsSplitSpace a).length = 2 ∧
        (jsSplitSpace a).head? = some "Bearer"
    · obtain ⟨hlen, hhead⟩ := hc
      obtain ⟨x, y, hxy⟩ := List.length_eq_two.mp hlen
      rw [hxy] at hhead
      simp only [List.head?_cons, Option.some.injEq] at hhead
      subst hhead
      simp only [hxy, hlen, List.head?_cons, and_self, if_pos, List.getD]
      constructor
      · intro hv
        exact ⟨y, rfl, by simpa using hv⟩
      · rintro ⟨t, ht, hv⟩
        have hyt : y = t := by simpa using ht
        subst hyt
        simpa using hv
    · rw [if_neg (by simpa using hc)]
      constructor
      · intro hcontra; cases hcontra
      · rintro ⟨t, ht, -⟩
        exact absurd ⟨by rw [ht]; rfl, by rw [ht]; rfl⟩ hc

/-- C7 witness: the characterization applied to the demo token recovers the
split and the verified payload. -/
theorem parseAuthHeader_characterization_witness :
    ∃ t, jsSplitSpace "Bearer good-token" = ["Bearer", t]
      ∧ demoVerify t =
        some ⟨some "u1", some "u1@example.com", some ["user/read"]⟩ := by
  exact ((parseAuthHeader_characterization demoVerify
    "Bearer good-token").1
    ⟨some "u1", some "u1@example.com", some ["user/read"]⟩).mp rfl

/-- C1: cross-call isolation under arbitrary interleaving — the state a call
reaches on the shared worker (in particular the log of guard outcomes it
observed) is a function of that call's own established context, its own
pending checks, and the number of turns the schedule gave it; contexts
established for other concurrently in-flight calls never influence it. -/
theorem crossCall_isolation (sched : List Nat) (w : Worker) (j : Nat) :
    runWorker w sched j = advanceCall (w j) (sched.count j) := by
  induction sched generalizing w with
  | nil => rfl
  | cons i s ih =>
    show runWorker (fun k => if k = i then stepCall (w k) else w k) s j =
      advanceCall (w j) ((i :: s).count j)
    rw [ih]
    by_cases h : j = i
    · subst h
      simp only [if_pos rfl]
      rw [List.count_cons_self]
      rfl
    · simp only [if_neg h]
      rw [List.count_cons_of_ne h]

/-- The spec §8 isolation scenario: calls A (`"u1"`, `{x/read}`) and
B (`"u2"`, `{x/read, x/write}`) both check `["x/write"]` while interleaved;
A's check fails and B's succeeds, under either interleaving order. -/
def isolationScenario : Worker := fun j =>
  if j = 0 then ⟨"u1", ["x/read"], [["x/write"]], []⟩
  else ⟨"u2", ["x/read", "x/write"], [["x/write"]], []⟩

example :
    (runWorker isolationScenario [0, 1] 0).log =
      [Except.error (GuardError.accessDenied ["x/write"])]
    ∧ (runWorker isolationScenario [0, 1] 1).log = [Except.ok ()] := ⟨rfl, rfl⟩

example :
    (runWorker isolationScenario [1, 0] 0).log =
      [Except.error (GuardError.accessDenied ["x/write"])]
    ∧ (runWorker isolationScenario [1, 0] 1).log = [Except.ok ()] := ⟨rfl, rfl⟩

end Boilerplate
